import Mathlib

/-!
Verification development for the jobly-assessment repository.

The code under verification is the Job model's filter pipeline
(`src/models/job.js`, `Job.findAll` lines 50-67), the `Job.update`
method (`src/models/job.js` lines 108-133), and the SQL helper
`sqlForPartialUpdate` (present in the repository only through its unit
tests in `helpers/sql.test.js` and its caller `Job.update`; here it is
modelled from the specification).

JavaScript dynamic values are embedded as the inductive type `JSValue`
(a number, string, boolean, null, or undefined), so that JavaScript
strict (in)equality and truthiness are explicit.  Absent function
arguments and absent object properties are `Option`s with `none` for
`undefined`.
-/

/-- Shallow embedding of the JavaScript values that flow through the
Job model: numbers (modelled as integers, as all numeric data in the
repository's tests are integers), strings (the representation the
database driver uses for NUMERIC columns such as `equity`), booleans,
`null` and `undefined`. -/
inductive JSValue where
  | num : Int → JSValue
  | str : String → JSValue
  | bool : Bool → JSValue
  | null : JSValue
  | undefined : JSValue
deriving DecidableEq, Repr

/-- JavaScript truthiness of a value: `0`, `""`, `false`, `null` and
`undefined` are falsy, everything else is truthy. -/
def jsTruthy : JSValue → Bool
  | JSValue.num n => decide (n ≠ 0)
  | JSValue.str s => decide (s ≠ "")
  | JSValue.bool b => b
  | JSValue.null => false
  | JSValue.undefined => false

/-- Truthiness of a possibly-absent value (`if (x)` where `x` may be
`undefined`). -/
def jsTruthyProp (o : Option JSValue) : Bool :=
  o.elim false jsTruthy

/-- String rendering of a value, as a JavaScript template literal
interpolation would produce (used for error messages such as
`No job: ${ID}`). -/
def jsDisplay : JSValue → String
  | JSValue.num n => toString n
  | JSValue.str s => s
  | JSValue.bool b => if b then "true" else "false"
  | JSValue.null => "null"
  | JSValue.undefined => "undefined"

/-- A row of the `jobs` table as `Job.findAll` sees it
(`SELECT id, title, salary, equity, company_handle FROM jobs`).
`equity` is kept as a `JSValue` because the stored type of that NUMERIC
column (string at the driver level, per the repository's own tests which
write and read equities such as `'0.04'`) is what claim C1 is about. -/
structure JSJob where
  id : Int
  title : String
  salary : Int
  equity : JSValue
  company_handle : String
deriving DecidableEq, Repr

/-- JavaScript `String.prototype.toLowerCase`, character by character. -/
def jsToLowerCase (s : String) : String :=
  String.mk (s.data.map Char.toLower)

/-- JavaScript `String.prototype.includes`: `sub` occurs as a contiguous
substring of `s`. -/
def strIncludes (s sub : String) : Bool :=
  s.data.tails.any (fun suffix => sub.data.isPrefixOf suffix)

/-- The filter pipeline of `Job.findAll` (`src/models/job.js` lines
50-67), applied to the rows the database returned.  Each of the three
guard conditions is the JavaScript truthiness test the source performs
on the corresponding argument (`if (title)`, `if (minSalary)`,
`if (hasEquity)`): an absent argument is `none`, and a present but
falsy one (empty string, zero, `false`) also skips its filter.
The equity filter is the source's strict inequality
`job.equity !== 0`: a strict comparison between values of different
runtime types is always an inequality. -/
def findAllFilter (rows : List JSJob) (title : Option String)
    (minSalary : Option Int) (hasEquity : Option Bool) : List JSJob :=
  let jobs := rows
  let jobs := match title with
    | some t =>
        if t ≠ "" then
          jobs.filter (fun j => strIncludes (jsToLowerCase j.title) (jsToLowerCase t))
        else jobs
    | none => jobs
  let jobs := match minSalary with
    | some m =>
        if m ≠ 0 then jobs.filter (fun j => decide (j.salary ≥ m)) else jobs
    | none => jobs
  let jobs := match hasEquity with
    | some b =>
        if b then jobs.filter (fun j => j.equity != JSValue.num 0) else jobs
    | none => jobs
  jobs

/-- The record predicate the title stage of `findAllFilter` enforces:
vacuously true when the argument is absent or the empty string (the
source's falsy guard skips the filter), otherwise case-insensitive
substring containment. -/
def titleKeepOpt : Option String → JSJob → Bool
  | none, _ => true
  | some t, j =>
      if t ≠ "" then strIncludes (jsToLowerCase j.title) (jsToLowerCase t) else true

/-- The record predicate the minSalary stage of `findAllFilter`
enforces: vacuously true when the argument is absent or zero, otherwise
the inclusive lower bound on salary. -/
def salaryKeepOpt : Option Int → JSJob → Bool
  | none, _ => true
  | some m, j => if m ≠ 0 then decide (j.salary ≥ m) else true

/-- The record predicate the hasEquity stage of `findAllFilter`
enforces: vacuously true when the argument is absent or `false`,
otherwise strict inequality of the equity value to the number `0`. -/
def equityKeepOpt : Option Bool → JSJob → Bool
  | none, _ => true
  | some b, j => if b then j.equity != JSValue.num 0 else true

/-- Lookup in an association list of strings, standing for property
access on a plain-object column map. -/
def lookupStr (m : List (String × String)) (k : String) : Option String :=
  (m.find? (fun kv => kv.1 == k)).map Prod.snd

/-- Errors thrown by the store layer: `BadRequestError` (the
specification's InvalidArgument) and `NotFoundError` (NotFound). -/
inductive StoreErr where
  | invalidArgument : String → StoreErr
  | notFound : String → StoreErr
deriving DecidableEq, Repr

/-- Modelled from the spec: the source of `sqlForPartialUpdate`
(`helpers/sql.js`) is not among the provided files; only its unit tests
and its caller `Job.update` are.  Following §4.1 of the specification:
a payload with no keys fails with InvalidArgument ("no data") before
any SQL is built; otherwise each key, in the payload's iteration order,
yields the clause fragment `"<column>"=$<n>` where `n` is the key's
1-based position and the column is the columnMap entry for the key when
one is present and the key itself otherwise; the fragments are joined
with `", "` and the bound values are the payload's values in the same
order.  A payload is an ordered sequence of key-value pairs, the
explicit form of a JavaScript object's own-property iteration. -/
def sqlForPartialUpdate (dataToUpdate : List (String × JSValue))
    (jsToSql : List (String × String)) : Except StoreErr (String × List JSValue) :=
  if dataToUpdate.isEmpty then
    Except.error (StoreErr.invalidArgument "no data")
  else
    Except.ok
      (String.intercalate ", " (dataToUpdate.enum.map (fun p =>
        "\"" ++ (lookupStr jsToSql p.2.1).getD p.2.1 ++ "\"=$" ++ toString (p.1 + 1))),
       dataToUpdate.map Prod.snd)

/-- The list of SET-clause fragments `sqlForPartialUpdate` joins:
fragment `i` (0-based) is `"<resolved column>"=$<i+1>`. -/
def fragsOf (dataToUpdate : List (String × JSValue))
    (jsToSql : List (String × String)) : List String :=
  dataToUpdate.enum.map (fun p =>
    "\"" ++ (lookupStr jsToSql p.2.1).getD p.2.1 ++ "\"=$" ++ toString (p.1 + 1))

/-- Property access `data[k]` on a payload object: the value of the
entry with key `k`, or `none` when the property is absent. -/
def jsGet (obj : List (String × JSValue)) (k : String) : Option JSValue :=
  (obj.find? (fun kv => kv.1 == k)).map Prod.snd

/-- JavaScript `delete data[k]` on a payload object, as the pure
function from the object before to the object after. -/
def jsDelete (k : String) (obj : List (String × JSValue)) : List (String × JSValue) :=
  obj.filter (fun kv => kv.1 != k)

/-- One sanitisation statement of `Job.update`:
`if (data[k]) { delete data[k]; }` — the entry is removed only when its
value is truthy. -/
def deleteIfTruthy (k : String) (data : List (String × JSValue)) : List (String × JSValue) :=
  if jsTruthyProp (jsGet data k) then jsDelete k data else data

/-- The in-place payload sanitisation at the top of `Job.update`
(`src/models/job.js` lines 109-114): `if (data.id) delete data.id;`
then `if (data.company_handle) delete data.company_handle;`, the second
statement operating on the object the first one produced. -/
def cleanUpdateData (data : List (String × JSValue)) : List (String × JSValue) :=
  deleteIfTruthy "company_handle" (deleteIfTruthy "id" data)

/-- The SQL text `Job.update` executes (whitespace normalised): the SET
clause followed by an identifier-equality clause at placeholder index
`idIdx`. -/
def updateQuerySql (setCols : String) (idIdx : Nat) : String :=
  "UPDATE jobs SET " ++ setCols ++ " WHERE id = $" ++ toString idIdx ++
    " RETURNING id, title, salary, equity, company_handle"

/-- `Job.update` (`src/models/job.js` lines 108-133), parameterised by
the database's execution capability `dbExec` (query text and bound
parameters in, result rows out — the specification's
`execute(query, params)` collaborator, with the row type abstract).
The payload is sanitised, the SET clause built (propagating its
InvalidArgument failure), the identifier bound at the next placeholder
index as the last parameter, and an empty result row set mapped to
NotFound; otherwise the first returned row is the result. -/
def jobUpdate {α : Type} (dbExec : String → List JSValue → List α)
    (ID : JSValue) (data : List (String × JSValue)) : Except StoreErr α :=
  match sqlForPartialUpdate (cleanUpdateData data) [] with
  | Except.error e => Except.error e
  | Except.ok (setCols, values) =>
      match dbExec (updateQuerySql setCols (values.length + 1)) (values ++ [ID]) with
      | [] => Except.error (StoreErr.notFound ("No job: " ++ jsDisplay ID))
      | job :: _ => Except.ok job

/-- The three seeded jobs of the repository's test fixture, in the
title order `Job.findAll` returns them. -/
def job1 : JSJob := ⟨1, "title1", 100000, JSValue.str "0.01", "c1"⟩

def job2 : JSJob := ⟨2, "title2", 200000, JSValue.str "0.02", "c2"⟩

def job3 : JSJob := ⟨3, "title2", 300000, JSValue.str "0.03", "c3"⟩

/-- A job whose equity is the string "0": the stored (string-typed)
zero representation of the NUMERIC equity column. -/
def jobStrZero : JSJob := ⟨4, "zerojob", 50000, JSValue.str "0", "c1"⟩

/-- A job whose equity is the number 0. -/
def jobNumZero : JSJob := ⟨5, "numzero", 60000, JSValue.num 0, "c2"⟩

/-- A job with a negative salary. -/
def jobNegSalary : JSJob := ⟨6, "neg", -1, JSValue.str "0.01", "c3"⟩

/-! ## Helper lemmas about the filter pipeline -/

/-- Every string contains the empty string (`"".includes` semantics of
the JavaScript source). -/
theorem strIncludes_empty (s : String) : strIncludes s "" = true := by
  unfold strIncludes
  cases hd : s.data with
  | nil => rfl
  | cons a as => simp [List.tails_cons, List.any_cons, List.isPrefixOf]

/-- The title stage of the pipeline is the filter by `titleKeepOpt`. -/
theorem filter_titleKeepOpt (l : List JSJob) (t : Option String) :
    l.filter (titleKeepOpt t) =
      (match t with
        | some s =>
            if s ≠ "" then
              l.filter (fun j => strIncludes (jsToLowerCase j.title) (jsToLowerCase s))
            else l
        | none => l) := by
  cases t with
  | none => exact List.filter_true l
  | some s =>
      by_cases hs : s = ""
      · subst hs
        simp only [ne_eq, not_true_eq_false, if_false]
        exact List.filter_true l
      · simp only [ne_eq, hs, not_false_eq_true, if_true]
        exact List.filter_congr (fun j _ => by simp [titleKeepOpt, hs])

/-- The minSalary stage of the pipeline is the filter by
`salaryKeepOpt`. -/
theorem filter_salaryKeepOpt (l : List JSJob) (m : Option Int) :
    l.filter (salaryKeepOpt m) =
      (match m with
        | some v => if v ≠ 0 then l.filter (fun j => decide (j.salary ≥ v)) else l
        | none => l) := by
  cases m with
  | none => exact List.filter_true l
  | some v =>
      by_cases hv : v = 0
      · subst hv
        simp only [ne_eq, not_true_eq_false, if_false]
        exact List.filter_true l
      · simp only [ne_eq, hv, not_false_eq_true, if_true]
        exact List.filter_congr (fun j _ => by simp [salaryKeepOpt, hv])

/-- The hasEquity stage of the pipeline is the filter by
`equityKeepOpt`. -/
theorem filter_equityKeepOpt (l : List JSJob) (e : Option Bool) :
    l.filter (equityKeepOpt e) =
      (match e with
        | some b => if b then l.filter (fun j => j.equity != JSValue.num 0) else l
        | none => l) := by
  cases e with
  | none => exact List.filter_true l
  | some b =>
      cases b with
      | false =>
          simp only [if_false]
          exact List.filter_true l
      | true =>
          simp only [if_true]
          exact List.filter_congr (fun j _ => by simp [equityKeepOpt])

/-- `findAllFilter` is the composition of the three stage filters. -/
theorem findAllFilter_eq_filter (rows : List JSJob) (t : Option String)
    (m : Option Int) (e : Option Bool) :
    findAllFilter rows t m e =
      ((rows.filter (titleKeepOpt t)).filter (salaryKeepOpt m)).filter (equityKeepOpt e) := by
  rw [filter_equityKeepOpt, filter_salaryKeepOpt, filter_titleKeepOpt]
  rfl

/-- `findAllFilter` is a single filter by the conjunction of the three
stage predicates. -/
theorem findAllFilter_eq_filter_conj (rows : List JSJob) (t : Option String)
    (m : Option Int) (e : Option Bool) :
    findAllFilter rows t m e =
      rows.filter (fun j => titleKeepOpt t j && salaryKeepOpt m j && equityKeepOpt e j) := by
  rw [findAllFilter_eq_filter, List.filter_filter, List.filter_filter]
  exact List.filter_congr (fun j _ => by
    cases titleKeepOpt t j <;> cases salaryKeepOpt m j <;> cases equityKeepOpt e j <;> rfl)

/-- A title-only invocation of the pipeline. -/
theorem findAllFilter_title_only (rows : List JSJob) (t : Option String) :
    findAllFilter rows t none none = rows.filter (titleKeepOpt t) := by
  rw [findAllFilter_eq_filter]
  rw [show List.filter (salaryKeepOpt none) (List.filter (titleKeepOpt t) rows) =
      List.filter (titleKeepOpt t) rows from List.filter_eq_self.mpr (fun a _ => rfl)]
  exact List.filter_eq_self.mpr (fun a _ => rfl)

/-- A minSalary-only invocation of the pipeline. -/
theorem findAllFilter_salary_only (rows : List JSJob) (m : Option Int) :
    findAllFilter rows none m none = rows.filter (salaryKeepOpt m) := by
  rw [findAllFilter_eq_filter]
  rw [show rows.filter (titleKeepOpt none) = rows from List.filter_eq_self.mpr (fun a _ => rfl)]
  exact List.filter_eq_self.mpr (fun a _ => rfl)

/-- A hasEquity-only invocation of the pipeline. -/
theorem findAllFilter_equity_only (rows : List JSJob) (e : Option Bool) :
    findAllFilter rows none none e = rows.filter (equityKeepOpt e) := by
  rw [findAllFilter_eq_filter]
  rw [show rows.filter (titleKeepOpt none) = rows from List.filter_eq_self.mpr (fun a _ => rfl)]
  rw [show rows.filter (salaryKeepOpt none) = rows from List.filter_eq_self.mpr (fun a _ => rfl)]

/-- Two consecutive filters commute. -/
theorem filter_swap (l : List JSJob) (p q : JSJob → Bool) :
    (l.filter p).filter q = (l.filter q).filter p := by
  rw [List.filter_filter, List.filter_filter]
  exact List.filter_congr (fun a _ => by cases p a <;> cases q a <;> rfl)

/-- Three consecutive filters may be applied in reverse order. -/
theorem filter3_rev (l : List JSJob) (p q r : JSJob → Bool) :
    ((l.filter p).filter q).filter r = ((l.filter r).filter q).filter p := by
  rw [List.filter_filter, List.filter_filter, List.filter_filter, List.filter_filter]
  exact List.filter_congr (fun a _ => by cases p a <;> cases q a <;> cases r a <;> rfl)

/-- The first two of three consecutive filters may be exchanged. -/
theorem filter3_swap12 (l : List JSJob) (p q r : JSJob → Bool) :
    ((l.filter p).filter q).filter r = ((l.filter q).filter p).filter r := by
  rw [filter_swap l p q]

/-! ## Helper lemmas about the SQL helper and the update path -/

/-- On a non-empty payload the SQL helper succeeds, returning the joined
fragments and the payload's values in iteration order. -/
theorem sqlForPartialUpdate_ok (data : List (String × JSValue))
    (cm : List (String × String)) (h : data ≠ []) :
    sqlForPartialUpdate data cm =
      Except.ok (String.intercalate ", " (fragsOf data cm), data.map Prod.snd) := by
  unfold sqlForPartialUpdate fragsOf
  rw [if_neg]
  intro hc
  exact h (List.isEmpty_iff.mp hc)

/-- There are exactly as many SET-clause fragments as payload entries. -/
theorem fragsOf_length (data : List (String × JSValue)) (cm : List (String × String)) :
    (fragsOf data cm).length = data.length := by
  simp [fragsOf, List.enum_length]

/-- Pointwise description of the SET-clause fragments: the fragment in
position `i` names the resolved column of the `i`-th payload key and
carries the placeholder `$(i+1)`. -/
theorem fragsOf_eq_ofFn (data : List (String × JSValue)) (cm : List (String × String)) :
    fragsOf data cm =
      List.ofFn (fun i : Fin data.length =>
        "\"" ++ (lookupStr cm (data.get i).1).getD (data.get i).1 ++ "\"=$" ++
          toString (i.1 + 1)) := by
  apply List.ext_getElem
  · rw [fragsOf_length, List.length_ofFn]
  · intro n h1 h2
    have hn : n < data.length := by
      rw [fragsOf_length] at h1
      exact h1
    unfold fragsOf
    rw [List.getElem_map, List.getElem_enum, List.getElem_ofFn]
    rfl

/-- An association-list lookup in the empty map always misses. -/
theorem lookupStr_nil (k : String) : lookupStr [] k = none := rfl

/-- Deleting a property makes its lookup miss. -/
theorem jsGet_jsDelete_self (k : String) (l : List (String × JSValue)) :
    jsGet (jsDelete k l) k = none := by
  induction l with
  | nil => rfl
  | cons kv rest ih =>
      by_cases hk : kv.1 = k
      · have hdel : jsDelete k (kv :: rest) = jsDelete k rest := by
          simp [jsDelete, List.filter_cons, hk]
        rw [hdel, ih]
      · have hdel : jsDelete k (kv :: rest) = kv :: jsDelete k rest := by
          simp [jsDelete, List.filter_cons, hk]
        rw [hdel]
        have e1 : jsGet (kv :: jsDelete k rest) k = jsGet (jsDelete k rest) k := by
          simp [jsGet, List.find?_cons_of_neg, hk]
        rw [e1, ih]

/-- Deleting one property leaves lookups of any other property
unchanged. -/
theorem jsGet_jsDelete_ne (k k' : String) (hkk : k ≠ k') (l : List (String × JSValue)) :
    jsGet (jsDelete k' l) k = jsGet l k := by
  induction l with
  | nil => rfl
  | cons kv rest ih =>
      by_cases h2 : kv.1 = k'
      · have h1 : kv.1 ≠ k := by
          rw [h2]
          exact fun hc => hkk hc.symm
        have hdel : jsDelete k' (kv :: rest) = jsDelete k' rest := by
          simp [jsDelete, List.filter_cons, h2]
        have e2 : jsGet (kv :: rest) k = jsGet rest k := by
          simp [jsGet, List.find?_cons_of_neg, h1]
        rw [hdel, ih, e2]
      · have hdel : jsDelete k' (kv :: rest) = kv :: jsDelete k' rest := by
          simp [jsDelete, List.filter_cons, h2]
        rw [hdel]
        by_cases h1 : kv.1 = k
        · simp [jsGet, List.find?_cons_of_pos, h1]
        · have e1 : jsGet (kv :: jsDelete k' rest) k = jsGet (jsDelete k' rest) k := by
            simp [jsGet, List.find?_cons_of_neg, h1]
          have e2 : jsGet (kv :: rest) k = jsGet rest k := by
            simp [jsGet, List.find?_cons_of_neg, h1]
          rw [e1, e2, ih]

/-- A property lookup misses exactly when the key is absent from the
object's key sequence. -/
theorem jsGet_eq_none_iff (l : List (String × JSValue)) (k : String) :
    jsGet l k = none ↔ k ∉ l.map Prod.fst := by
  unfold jsGet
  rw [Option.map_eq_none', List.find?_eq_none]
  constructor
  · intro h hk
    rcases List.mem_map.mp hk with ⟨kv, hmem, hfst⟩
    exact h kv hmem (by rw [beq_iff_eq, hfst])
  · intro h kv hmem hbeq
    exact h (List.mem_map.mpr ⟨kv, hmem, beq_iff_eq.mp hbeq⟩)

/-- `Job.update` on a payload that survives sanitisation: the statement
executes with the identifier bound last, and an empty row set becomes
NotFound while a first row becomes the result. -/
theorem jobUpdate_eq {α : Type} (dbExec : String → List JSValue → List α)
    (ID : JSValue) (data : List (String × JSValue)) (h : cleanUpdateData data ≠ []) :
    jobUpdate dbExec ID data =
      (match dbExec
          (updateQuerySql (String.intercalate ", " (fragsOf (cleanUpdateData data) []))
            (((cleanUpdateData data).map Prod.snd).length + 1))
          (((cleanUpdateData data).map Prod.snd) ++ [ID]) with
        | [] => Except.error (StoreErr.notFound ("No job: " ++ jsDisplay ID))
        | job :: _ => Except.ok job) := by
  unfold jobUpdate
  rw [sqlForPartialUpdate_ok (cleanUpdateData data) [] h]

/-! ## Claim theorems -/

/-- C1 counterexample: the claim states that under `hasEquity` the
filter excludes a record whose equity is the stored zero representation
of its type, in particular the string "0" for the string-typed NUMERIC
column.  The source's filter is the strict comparison
`job.equity !== 0` against the number zero, and a strict comparison
between a string and a number is always an inequality, so the record
with equity `"0"` is retained, contradicting the claim at this
input. -/
theorem C1_counterexample :
    jobStrZero.equity = JSValue.str "0"
    ∧ findAllFilter [jobStrZero] none none (some true) = [jobStrZero] := by
  decide

/-- C1 (amended): for every record sequence, when `hasEquity` is set
and true the filter retains exactly the records whose equity is not
strictly equal (same runtime type and value) to the number 0; in
particular a record whose equity is the string "0" is retained, and a
record whose equity is the number 0 is excluded. -/
theorem C1_amended (rows : List JSJob) :
    findAllFilter rows none none (some true) =
      rows.filter (fun j => decide (¬ (j.equity = JSValue.num 0)))
    ∧ findAllFilter [jobStrZero] none none (some true) = [jobStrZero]
    ∧ findAllFilter [jobNumZero] none none (some true) = [] := by
  refine ⟨?_, by decide, by decide⟩
  rw [findAllFilter_equity_only]
  apply List.filter_congr
  intro j _
  show equityKeepOpt (some true) j = decide (¬ (j.equity = JSValue.num 0))
  rw [decide_not]
  rfl

/-- C2: for every columnMap argument, the SQL helper applied to an
empty payload fails with InvalidArgument carrying the message
"no data", and no clause or value sequence is produced (the error is
the entire result). -/
theorem C2_empty_payload (jsToSql : List (String × String)) :
    sqlForPartialUpdate [] jsToSql =
      Except.error (StoreErr.invalidArgument "no data") := rfl

/-- C3: for every non-empty payload with distinct keys and every
columnMap, the SQL helper returns the payload's values in iteration
order, one value per distinct key, and a clause that is the `", "`-join
of exactly one fragment per key, the fragment in position `i` carrying
the single placeholder `$(i+1)` — consecutive numbering from 1 with no
gaps, in the payload's key iteration order. -/
theorem C3_clause_shape (data : List (String × JSValue)) (cm : List (String × String))
    (h1 : data ≠ []) (h2 : (data.map Prod.fst).Nodup) :
    sqlForPartialUpdate data cm =
        Except.ok (String.intercalate ", " (fragsOf data cm), data.map Prod.snd)
    ∧ fragsOf data cm =
        List.ofFn (fun i : Fin data.length =>
          "\"" ++ (lookupStr cm (data.get i).1).getD (data.get i).1 ++ "\"=$" ++
            toString (i.1 + 1))
    ∧ (fragsOf data cm).length = data.length
    ∧ (data.map Prod.snd).length = ((data.map Prod.fst).dedup).length := by
  refine ⟨sqlForPartialUpdate_ok data cm h1, fragsOf_eq_ofFn data cm,
    fragsOf_length data cm, ?_⟩
  rw [List.Nodup.dedup h2]
  simp

/-- Witness for C3 at the payload of the repository's own unit test. -/
theorem C3_clause_shape_witness :
    ([("name", JSValue.str "ethan")] ≠ ([] : List (String × JSValue)))
    ∧ (List.map Prod.fst [("name", JSValue.str "ethan")]).Nodup
    ∧ sqlForPartialUpdate [("name", JSValue.str "ethan")] [] =
        Except.ok (String.intercalate ", " (fragsOf [("name", JSValue.str "ethan")] []),
          List.map Prod.snd [("name", JSValue.str "ethan")]) :=
  ⟨by decide, by decide,
    (C3_clause_shape [("name", JSValue.str "ethan")] [] (by decide) (by decide)).1⟩

/-- C4: for every non-empty payload, a columnMap entry changes only the
emitted column name — the fragment for a mapped key carries the mapped
name, an unmapped key appears verbatim — while placeholder positions
and the bound value sequence are identical with and without the
mapping; and the repository's concrete example holds:
`buildSetClause({name: "ethan"}, {name: "firstName"})` yields the
clause `"firstName"=$1` with values `["ethan"]`. -/
theorem C4_column_mapping (data : List (String × JSValue)) (cm : List (String × String))
    (h : data ≠ []) :
    sqlForPartialUpdate data cm =
        Except.ok (String.intercalate ", " (fragsOf data cm), data.map Prod.snd)
    ∧ sqlForPartialUpdate data [] =
        Except.ok (String.intercalate ", " (fragsOf data []), data.map Prod.snd)
    ∧ (fragsOf data cm).length = (fragsOf data []).length
    ∧ fragsOf data [] =
        List.ofFn (fun i : Fin data.length =>
          "\"" ++ (data.get i).1 ++ "\"=$" ++ toString (i.1 + 1))
    ∧ fragsOf data cm =
        List.ofFn (fun i : Fin data.length =>
          "\"" ++ (lookupStr cm (data.get i).1).getD (data.get i).1 ++ "\"=$" ++
            toString (i.1 + 1))
    ∧ sqlForPartialUpdate [("name", JSValue.str "ethan")] [("name", "firstName")] =
        Except.ok ("\"firstName\"=$1", [JSValue.str "ethan"]) := by
  refine ⟨sqlForPartialUpdate_ok data cm h, sqlForPartialUpdate_ok data [] h, ?_, ?_,
    fragsOf_eq_ofFn data cm, rfl⟩
  · rw [fragsOf_length, fragsOf_length]
  · rw [fragsOf_eq_ofFn]
    rfl

/-- Witness for C4 at the payload and columnMap of the repository's own
unit test. -/
theorem C4_column_mapping_witness :
    ([("name", JSValue.str "ethan")] ≠ ([] : List (String × JSValue)))
    ∧ sqlForPartialUpdate [("name", JSValue.str "ethan")] [("name", "firstName")] =
        Except.ok ("\"firstName\"=$1", [JSValue.str "ethan"]) :=
  ⟨by decide,
    (C4_column_mapping [("name", JSValue.str "ethan")] [("name", "firstName")]
      (by decide)).2.2.2.2.2⟩

/-- C5: for every record sequence and every title criterion (with no
other filter supplied), the pipeline retains exactly the records whose
title contains the criterion as a case-insensitive substring; filtering
the fixture titles `["title1","title2","title2"]` by "2" yields exactly
the two "title2" records. -/
theorem C5_title_filter (rows : List JSJob) (t : String) :
    findAllFilter rows (some t) none none =
      rows.filter (fun j => strIncludes (jsToLowerCase j.title) (jsToLowerCase t))
    ∧ findAllFilter [job1, job2, job3] (some "2") none none = [job2, job3] := by
  constructor
  · rw [findAllFilter_title_only]
    apply List.filter_congr
    intro j _
    by_cases hs : t = ""
    · subst hs
      show titleKeepOpt (some "") j = strIncludes (jsToLowerCase j.title) (jsToLowerCase "")
      have h2 : strIncludes (jsToLowerCase j.title) (jsToLowerCase "") = true :=
        strIncludes_empty _
      rw [h2]
      rfl
    · simp [titleKeepOpt, hs]
  · decide

/-- C6 counterexample: the claim states that whenever `numericMin` is
set the filter retains exactly the records whose salary meets the bound.
With the bound set to 0 the source's truthiness guard `if (minSalary)`
is false and the filter is skipped, so a record with salary -1 is
retained even though it does not meet the bound. -/
theorem C6_counterexample :
    findAllFilter [jobNegSalary] none (some 0) none = [jobNegSalary]
    ∧ List.filter (fun j => decide (j.salary ≥ (0 : Int))) [jobNegSalary] = [] := by
  decide

/-- C6 (amended): for every record sequence and every nonzero
`numericMin` criterion (a zero minimum is treated as absent by the
source's truthiness guard), the filter retains exactly the records
whose salary is ≥ the criterion — an inclusive bound, so every record
whose salary equals the criterion is retained. -/
theorem C6_amended (rows : List JSJob) (m : Int) (h : m ≠ 0) :
    findAllFilter rows none (some m) none = rows.filter (fun j => decide (j.salary ≥ m))
    ∧ (rows.filter (fun j => j.salary == m)).all
        (fun j => (findAllFilter rows none (some m) none).contains j) = true := by
  have h1 : findAllFilter rows none (some m) none =
      rows.filter (fun j => decide (j.salary ≥ m)) := by
    rw [findAllFilter_salary_only]
    apply List.filter_congr
    intro j _
    simp [salaryKeepOpt, h]
  refine ⟨h1, ?_⟩
  rw [List.all_eq_true]
  intro j hj
  rcases List.mem_filter.mp hj with ⟨hjr, hsal⟩
  have hjeq : j.salary = m := beq_iff_eq.mp hsal
  rw [h1, List.contains_eq_any_beq, List.any_eq_true]
  exact ⟨j, List.mem_filter.mpr ⟨hjr, decide_eq_true (ge_of_eq hjeq)⟩, beq_iff_eq.mpr rfl⟩

/-- Witness for C6 (amended) at the fixture's first record and its own
salary as the bound, exercising the inclusive boundary. -/
theorem C6_amended_witness :
    ((100000 : Int) ≠ 0)
    ∧ findAllFilter [job1] none (some 100000) none =
        [job1].filter (fun j => decide (j.salary ≥ (100000 : Int))) :=
  ⟨by decide, (C6_amended [job1] 100000 (by decide)).1⟩

/-- C7: the full pipeline equals the sequential application of the
individual filters, in several orders; unsupplied filters are
identities; and membership in the combined result is the conjunction of
the three stage predicates (AND semantics). -/
theorem C7_conjunctive_filters (rows : List JSJob) (t : Option String)
    (m : Option Int) (e : Option Bool) :
    findAllFilter rows t m e =
        findAllFilter (findAllFilter (findAllFilter rows t none none) none m none) none none e
    ∧ findAllFilter rows t m e =
        findAllFilter (findAllFilter (findAllFilter rows none none e) none m none) t none none
    ∧ findAllFilter rows t m e =
        findAllFilter (findAllFilter (findAllFilter rows none m none) t none none) none none e
    ∧ findAllFilter rows none none none = rows
    ∧ (∀ j : JSJob, j ∈ findAllFilter rows t m e ↔
        j ∈ rows ∧ titleKeepOpt t j = true ∧ salaryKeepOpt m j = true ∧
          equityKeepOpt e j = true) := by
  refine ⟨?_, ?_, ?_, rfl, ?_⟩
  · rw [findAllFilter_equity_only, findAllFilter_salary_only, findAllFilter_title_only,
      findAllFilter_eq_filter]
  · rw [findAllFilter_title_only, findAllFilter_salary_only, findAllFilter_equity_only,
      findAllFilter_eq_filter, filter3_rev]
  · rw [findAllFilter_equity_only, findAllFilter_title_only, findAllFilter_salary_only,
      findAllFilter_eq_filter, filter3_swap12]
  · intro j
    rw [findAllFilter_eq_filter_conj, List.mem_filter]
    simp [Bool.and_eq_true, and_assoc]

/-- C8: for every record sequence and every criteria, the filtered
result is a subsequence of the input — every retained record is an
(unmutated) input record and the retained records keep the input's
relative order. -/
theorem C8_stable_subsequence (rows : List JSJob) (t : Option String)
    (m : Option Int) (e : Option Bool) :
    List.Sublist (findAllFilter rows t m e) rows := by
  rw [findAllFilter_eq_filter_conj]
  exact List.filter_sublist rows

/-! ## Helper lemmas about sanitisation, and claims C9 and C10 -/

/-- Deleting a truthy entry makes its lookup miss. -/
theorem jsGet_deleteIfTruthy_self (k : String) (data : List (String × JSValue))
    (h : jsTruthyProp (jsGet data k) = true) :
    jsGet (deleteIfTruthy k data) k = none := by
  unfold deleteIfTruthy
  rw [if_pos h]
  exact jsGet_jsDelete_self k data

/-- A falsy (or absent) entry is not deleted. -/
theorem deleteIfTruthy_falsy (k : String) (data : List (String × JSValue))
    (h : jsTruthyProp (jsGet data k) = false) :
    deleteIfTruthy k data = data := by
  unfold deleteIfTruthy
  rw [if_neg]
  rw [h]
  exact Bool.false_ne_true

/-- Sanitising one key leaves lookups of any other key unchanged. -/
theorem jsGet_deleteIfTruthy_ne (k k' : String) (data : List (String × JSValue))
    (h : k ≠ k') :
    jsGet (deleteIfTruthy k' data) k = jsGet data k := by
  unfold deleteIfTruthy
  split
  · exact jsGet_jsDelete_ne k k' h data
  · rfl

/-- C9 counterexample: the claim quantifies over every non-empty
payload.  The payload consisting of the single truthy `id` entry is
non-empty, yet `Job.update` deletes that entry, leaving an empty
payload, and fails with InvalidArgument ("no data") before composing or
executing any statement — even against a database that would return a
row for every statement (so the claim would require a successful
update returning that row). -/
theorem C9_counterexample :
    ([("id", JSValue.num 1)] ≠ ([] : List (String × JSValue)))
    ∧ jobUpdate (fun _ _ => [(0 : Nat)]) (JSValue.num 5) [("id", JSValue.num 1)] =
        Except.error (StoreErr.invalidArgument "no data") :=
  ⟨by decide, rfl⟩

/-- C9 (amended): for every identifier and every payload that is still
non-empty after the truthy `id` and `company_handle` entries are
removed, `Job.update` executes the composed statement with the
identifier-equality clause bound at the next placeholder index after
the SET-clause values (index n+1 for n values, the identifier appended
as the last bound value), raises NotFound exactly when the executed
statement returns no row, and on success returns the first returned
(updated) row. -/
theorem C9_amended {α : Type} (dbExec : String → List JSValue → List α) (ID : JSValue)
    (data : List (String × JSValue)) (h : cleanUpdateData data ≠ []) :
    jobUpdate dbExec ID data =
      (match dbExec
          (updateQuerySql (String.intercalate ", " (fragsOf (cleanUpdateData data) []))
            (((cleanUpdateData data).map Prod.snd).length + 1))
          ((cleanUpdateData data).map Prod.snd ++ [ID]) with
        | [] => Except.error (StoreErr.notFound ("No job: " ++ jsDisplay ID))
        | job :: _ => Except.ok job)
    ∧ ((cleanUpdateData data).map Prod.snd ++ [ID]).getD
        ((cleanUpdateData data).map Prod.snd).length JSValue.undefined = ID
    ∧ ((cleanUpdateData data).map Prod.snd ++ [ID]).length =
        ((cleanUpdateData data).map Prod.snd).length + 1
    ∧ (jobUpdate dbExec ID data =
          Except.error (StoreErr.notFound ("No job: " ++ jsDisplay ID)) ↔
        dbExec
          (updateQuerySql (String.intercalate ", " (fragsOf (cleanUpdateData data) []))
            (((cleanUpdateData data).map Prod.snd).length + 1))
          ((cleanUpdateData data).map Prod.snd ++ [ID]) = []) := by
  refine ⟨jobUpdate_eq dbExec ID data h, ?_, by simp, ?_⟩
  · have hb : ((cleanUpdateData data).map Prod.snd).length <
        ((cleanUpdateData data).map Prod.snd ++ [ID]).length := by
      simp
    rw [List.getD_eq_getElem _ _ hb]
    exact List.getElem_concat_length _ _ _ rfl hb
  · rw [jobUpdate_eq dbExec ID data h]
    generalize dbExec
        (updateQuerySql (String.intercalate ", " (fragsOf (cleanUpdateData data) []))
          (((cleanUpdateData data).map Prod.snd).length + 1))
        ((cleanUpdateData data).map Prod.snd ++ [ID]) = res
    cases res with
    | nil => simp
    | cons r rest => simp

/-- Witness for C9 (amended): a one-entry title payload against a
database returning no rows yields NotFound. -/
theorem C9_amended_witness :
    (cleanUpdateData [("title", JSValue.str "t")] ≠ ([] : List (String × JSValue)))
    ∧ jobUpdate (fun _ _ => ([] : List Nat)) (JSValue.num 7) [("title", JSValue.str "t")] =
        Except.error (StoreErr.notFound "No job: 7") :=
  ⟨by decide,
    ((C9_amended (fun _ _ => ([] : List Nat)) (JSValue.num 7) [("title", JSValue.str "t")]
      (by decide)).1).trans rfl⟩

/-- C10 counterexample: the claim concludes that whenever a truthy `id`
or `company_handle` entry is deleted, the generated SET clause never
contains the `id` or `company_handle` column.  For the payload
`{id: 1, company_handle: ""}` the hypothesis holds (the `id` entry is
truthy and is deleted), yet the falsy `company_handle` entry survives
sanitisation and the generated SET clause is exactly
`"company_handle"=$1`. -/
theorem C10_counterexample :
    jsTruthyProp (jsGet [("id", JSValue.num 1), ("company_handle", JSValue.str "")] "id") = true
    ∧ sqlForPartialUpdate
        (cleanUpdateData [("id", JSValue.num 1), ("company_handle", JSValue.str "")]) [] =
        Except.ok ("\"company_handle\"=$1", [JSValue.str ""]) :=
  ⟨by decide, rfl⟩

/-- C10 (amended): `Job.update` deletes the `id` entry exactly when it
is present and truthy, and likewise the `company_handle` entry, before
the SET clause is built from the sanitised payload — so a deleted
entry's key no longer occurs among the payload keys from which the SET
clause columns are drawn; an `id` or `company_handle` entry present
with a falsy value is retained (and its column does appear in the SET
clause), and all other entries are untouched. -/
theorem C10_amended (data : List (String × JSValue)) :
    (jsTruthyProp (jsGet data "id") = true → jsGet (cleanUpdateData data) "id" = none)
    ∧ (jsTruthyProp (jsGet data "id") = true →
        "id" ∉ (cleanUpdateData data).map Prod.fst)
    ∧ (jsTruthyProp (jsGet data "company_handle") = true →
        jsGet (cleanUpdateData data) "company_handle" = none)
    ∧ (jsTruthyProp (jsGet data "company_handle") = true →
        "company_handle" ∉ (cleanUpdateData data).map Prod.fst)
    ∧ (jsTruthyProp (jsGet data "id") = false →
        jsGet (cleanUpdateData data) "id" = jsGet data "id")
    ∧ (jsTruthyProp (jsGet data "company_handle") = false →
        jsGet (cleanUpdateData data) "company_handle" = jsGet data "company_handle")
    ∧ (∀ k : String, k ≠ "id" → k ≠ "company_handle" →
        jsGet (cleanUpdateData data) k = jsGet data k) := by
  have hne1 : ("id" : String) ≠ "company_handle" := by decide
  have hgid : jsGet (deleteIfTruthy "id" data) "company_handle" = jsGet data "company_handle" :=
    jsGet_deleteIfTruthy_ne "company_handle" "id" data (by decide)
  refine ⟨?_, ?_, ?_, ?_, ?_, ?_, ?_⟩
  · intro h
    unfold cleanUpdateData
    rw [jsGet_deleteIfTruthy_ne "id" "company_handle" _ hne1]
    exact jsGet_deleteIfTruthy_self "id" data h
  · intro h
    refine (jsGet_eq_none_iff _ _).mp ?_
    unfold cleanUpdateData
    rw [jsGet_deleteIfTruthy_ne "id" "company_handle" _ hne1]
    exact jsGet_deleteIfTruthy_self "id" data h
  · intro h
    unfold cleanUpdateData
    refine jsGet_deleteIfTruthy_self "company_handle" _ ?_
    rw [hgid]
    exact h
  · intro h
    refine (jsGet_eq_none_iff _ _).mp ?_
    unfold cleanUpdateData
    refine jsGet_deleteIfTruthy_self "company_handle" _ ?_
    rw [hgid]
    exact h
  · intro h
    unfold cleanUpdateData
    rw [jsGet_deleteIfTruthy_ne "id" "company_handle" _ hne1]
    rw [deleteIfTruthy_falsy "id" data h]
  · intro h
    unfold cleanUpdateData
    rw [deleteIfTruthy_falsy "company_handle" _ (by rw [hgid]; exact h), hgid]
  · intro k hk1 hk2
    unfold cleanUpdateData
    rw [jsGet_deleteIfTruthy_ne k "company_handle" _ hk2,
      jsGet_deleteIfTruthy_ne k "id" _ hk1]

/-- Witness for C10 (amended): a payload with a truthy `id` entry loses
that entry during sanitisation. -/
theorem C10_amended_witness :
    jsTruthyProp (jsGet [("id", JSValue.num 2), ("title", JSValue.str "x")] "id") = true
    ∧ jsGet (cleanUpdateData [("id", JSValue.num 2), ("title", JSValue.str "x")]) "id" = none :=
  ⟨by decide,
    (C10_amended [("id", JSValue.num 2), ("title", JSValue.str "x")]).1 (by decide)⟩
